import Mathlib

/-!
Shallow embedding of the `cop-context` repository's tool-call orchestration
core (files `src/context.py`, `src/handlers.py`, `src/pipeline.py`,
`src/tools.py`).  Python's in-place mutation of `Person` objects and of the
shared `Context` is modelled by explicit state passing: every handler takes
the context and returns the result paired with the updated context.  Python
dicts are modelled as association lists with Python's dict semantics
(lookup of the first matching key; assignment replaces an existing entry in
place, otherwise appends; `pop` removes the entry).
-/

set_option autoImplicit false

namespace CopContext

/-- The single-quote character, used when rendering the source's f-strings
(for example `f"Source person '{source_name}' not found."`). -/
def sq : String := (Char.ofNat 39).toString

/-! ## Entity model — `Person` (src/context.py) -/

/-- `Person` from `src/context.py`: four scalar string attributes (default
empty) and an ordered list of quotes (initially empty). -/
structure Person where
  name : String
  description : String
  role : String
  speaker_id : String
  quotes : List String
deriving Repr, DecidableEq

/-- `Person.add_quote`: `self.quotes.append(quote)` — unconditional append,
no de-duplication. -/
def Person.add_quote (p : Person) (q : String) : Person :=
  { p with quotes := p.quotes ++ [q] }

/-- The quote loop of `Person.merge`:
`for quote in other.quotes: if quote not in self.quotes: self.quotes.append(quote)`.
The membership test is against the growing list, hence the fold. -/
def mergeQuotes (selfQ otherQ : List String) : List String :=
  otherQ.foldl (fun acc q => if q ∈ acc then acc else acc ++ [q]) selfQ

/-- `Person.merge` from `src/context.py`: each scalar field adopts `other`'s
value only when `other`'s value is truthy (non-empty) and `self`'s is falsy
(empty); quotes from `other` are appended when not already present by exact
string match.  The receiver is mutated and returned; here the mutated value
is the result. -/
def Person.merge (self other : Person) : Person :=
  { name := if other.name ≠ "" ∧ self.name = "" then other.name else self.name
    description :=
      if other.description ≠ "" ∧ self.description = "" then other.description
      else self.description
    role := if other.role ≠ "" ∧ self.role = "" then other.role else self.role
    speaker_id :=
      if other.speaker_id ≠ "" ∧ self.speaker_id = "" then other.speaker_id
      else self.speaker_id
    quotes := mergeQuotes self.quotes other.quotes }

/-- `Person.__str__`:
`f"Person(name='{name}', description='{description}', role='{role}', quotes={len(quotes)})"`. -/
def Person.toStr (p : Person) : String :=
  "Person(name=" ++ sq ++ p.name ++ sq ++ ", description=" ++ sq ++
    p.description ++ sq ++ ", role=" ++ sq ++ p.role ++ sq ++ ", quotes=" ++
    toString p.quotes.length ++ ")"

/-- The `updates` dict built by `update_person` before its `add_data` call:
a partial map whose possible keys are exactly the four recognized scalar
attributes (`None` = key absent). -/
structure Updates where
  name : Option String
  description : Option String
  role : Option String
  speaker_id : Option String
deriving Repr, DecidableEq

/-- `updates` dict truthiness: `if updates:` is true iff the dict is
non-empty. -/
def Updates.nonEmpty (u : Updates) : Bool :=
  u.name.isSome || u.description.isSome || u.role.isSome || u.speaker_id.isSome

/-- `Person.add_data(**kwargs)` as called by `update_person`: every key of
the `updates` dict is one of the four recognized attributes, and each
supplied key overwrites the corresponding attribute (`hasattr` holds for all
of them, so nothing is ignored on this call path). -/
def Person.add_data (p : Person) (u : Updates) : Person :=
  { p with
    name := u.name.getD p.name
    description := u.description.getD p.description
    role := u.role.getD p.role
    speaker_id := u.speaker_id.getD p.speaker_id }

/-! ## The "people" table — a Python dict from name to `Person` -/

/-- The `people` dict: insertion-ordered association list with unique keys
(Python dict). -/
abbrev PeopleDict := List (String × Person)

/-- `k in people` (Python membership test). -/
def dictContains (d : PeopleDict) (k : String) : Bool :=
  match d with
  | [] => false
  | e :: es => e.1 = k || dictContains es k

/-- `people[k]` as a partial lookup: the value at the first entry whose key
is `k` (Python dicts hold at most one entry per key). -/
def dictGet? (d : PeopleDict) (k : String) : Option Person :=
  match d with
  | [] => none
  | e :: es => if e.1 = k then some e.2 else dictGet? es k

/-- `people[k] = v`: replace the existing entry in place, else append — the
semantics of Python dict assignment. -/
def dictInsert (d : PeopleDict) (k : String) (v : Person) : PeopleDict :=
  match d with
  | [] => [(k, v)]
  | e :: es => if e.1 = k then (k, v) :: es else e :: dictInsert es k v

/-- `people.pop(k)`: remove the entry with key `k` (the first match). -/
def dictPop (d : PeopleDict) (k : String) : PeopleDict :=
  match d with
  | [] => []
  | e :: es => if e.1 = k then es else e :: dictPop es k

/-- Python dicts never hold two entries with the same key; stores built by
the handlers satisfy this invariant. -/
abbrev nodupKeys (d : PeopleDict) : Prop :=
  (d.map (fun e => e.1)).Nodup

/-! ## Record Store — `Context` (src/context.py)

`Context.data` is a generic string-keyed dict.  The four handlers read and
write exactly the keys `"people"`, `"last_operation"`,
`"last_result_summary"`, `"merged_from"`, `"merged_to"` and
`"search_keyword"`, so the embedding fixes the store as a record of those
keys, each optional (`none` = key absent from `data`); any other key is
never touched by the core and is omitted. -/

structure Context where
  people : Option PeopleDict
  last_operation : Option String
  last_result_summary : Option String
  merged_from : Option String
  merged_to : Option String
  search_keyword : Option String
deriving Repr, DecidableEq

/-- A fresh store, `Context()` with empty `data`. -/
def Context.empty : Context := ⟨none, none, none, none, none, none⟩

/-- `context.get("people", {})`: the stored table, or an empty dict when the
key is absent (the default is not written back). -/
def Context.getPeople (c : Context) : PeopleDict :=
  c.people.getD []

/-! ## Handler results (src/handlers.py)

Each handler returns a Python dict; the distinct dict shapes appearing in
`handlers.py` become constructors (`{"error": msg}`, create/update's
`{"status": "success", "person_name", "details"}`, `{"status": "no_change",
"message"}`, lookup's success/`no_matches` shapes, and merge's
`{"status": "success", "merged_person_name", "details"}`). -/

/-- One entry of `lookup_person`'s result list:
`{"name": ..., "role": ..., "description": ...}`. -/
structure LookupEntry where
  name : String
  role : String
  description : String
deriving Repr, DecidableEq

inductive ToolResult where
  /-- `{"error": msg}` -/
  | error (msg : String)
  /-- `{"status": "success", "person_name": ..., "details": ...}` -/
  | success (person_name : String) (details : String)
  /-- `{"status": "no_change", "message": ...}` -/
  | noChange (message : String)
  /-- `{"status": "success", "results": ..., "count": ...}` -/
  | lookupSuccess (results : List LookupEntry) (count : Nat)
  /-- `{"status": "no_matches", "message": ...}` -/
  | noMatches (message : String)
  /-- `{"status": "success", "merged_person_name": ..., "details": ...}` -/
  | mergeSuccess (merged_person_name : String) (details : String)
deriving Repr, DecidableEq

/-! ## Handlers (src/handlers.py)

The `context is None` guard at the top of each handler is a fatal
precondition fault of the Python calling convention; in the embedding the
context argument is always present, so that branch is unreachable and
omitted. -/

/-- `create_person`: insert a new `Person` keyed by `name` (last write wins
on collision), then write the bookkeeping keys. -/
def create_person (name description role speaker_id : String) (c : Context) :
    ToolResult × Context :=
  let person : Person := ⟨name, description, role, speaker_id, []⟩
  let people := dictInsert c.getPeople name person
  (ToolResult.success name person.toStr,
   { c with
     people := some people
     last_operation := some "create_person"
     last_result_summary := some ("Created person: " ++ name) })

/-- `update_person`: partial field overwrite / rename / quote append.  The
`person_name not in people` guard and the `people[person_name]` access are
fused into one `match` on the lookup.  Python mutates the looked-up `Person`
in place, so the table entry always reflects the mutation; in the value
embedding the final person is written back at its key (`person_name`, or
`new_name` after the pop/insert re-keying when the name changed). -/
def update_person (person_name : String)
    (name description role speaker_id quote : Option String) (c : Context) :
    ToolResult × Context :=
  let people := c.getPeople
  match dictGet? people person_name with
  | none =>
      (ToolResult.error
        ("Person " ++ sq ++ person_name ++ sq ++ " not found. Cannot update."),
       c)
  | some person =>
      let updates : Updates :=
        { name := match name with
            | some n => if n ≠ person.name then some n else none
            | none => none
          description := description
          role := role
          speaker_id := speaker_id }
      let p1 := if updates.nonEmpty then person.add_data updates else person
      let p2 := match quote with
        | some q => p1.add_quote q
        | none => p1
      let updated := updates.nonEmpty || quote.isSome
      if updated then
        let people' :=
          match updates.name with
          | some new_name =>
              if new_name ≠ person_name then
                dictInsert (dictPop people person_name) new_name p2
              else dictInsert people person_name p2
          | none => dictInsert people person_name p2
        (ToolResult.success p2.name p2.toStr,
         { c with
           people := some people'
           last_operation := some "update_person"
           last_result_summary := some ("Updated person: " ++ p2.name) })
      else
        (ToolResult.noChange ("No updates provided for " ++ person_name), c)

/-- Python's `needle in haystack` on strings: substring containment, on the
underlying character lists. -/
def subSeq (needle hay : List Char) : Bool :=
  if needle.isPrefixOf hay then true
  else
    match hay with
    | [] => false
    | _ :: t => subSeq needle t

/-- `keyword_lower in s.lower()` as used by `lookup_person`. -/
def pyIn (needle hay : String) : Bool :=
  subSeq needle.toList hay.toList

/-- `s.lower()` (character-wise lowercasing). -/
def strLower (s : String) : String :=
  s.map Char.toLower

/-- `lookup_person`: case-insensitive substring search over name,
description and role, OR-combined; writes the bookkeeping keys before the
empty check, so even a `no_matches` outcome updates them. -/
def lookup_person (keyword : String) (c : Context) : ToolResult × Context :=
  let people := c.getPeople
  let kw := strLower keyword
  let results :=
    (people.filter (fun e =>
        pyIn kw (strLower e.1) || pyIn kw (strLower e.2.description) ||
          pyIn kw (strLower e.2.role))).map
      (fun e => LookupEntry.mk e.2.name e.2.role e.2.description)
  let c' :=
    { c with
      last_operation := some "lookup_person"
      last_result_summary :=
        some ("Found " ++ toString results.length ++ " match(es) for " ++ sq ++
          keyword ++ sq)
      search_keyword := some keyword }
  if results.isEmpty then
    (ToolResult.noMatches
      ("No people found matching " ++ sq ++ keyword ++ sq), c')
  else
    (ToolResult.lookupSuccess results results.length, c')

/-- `merge_persons`: the two `not in people` guards (source first, then
target, fused with the later dict accesses into `match`es on the lookups),
then the self-merge guard; on success the target is merged in place and the
source entry popped. -/
def merge_persons (source_name target_name : String) (c : Context) :
    ToolResult × Context :=
  let people := c.getPeople
  match dictGet? people source_name with
  | none =>
      (ToolResult.error
        ("Source person " ++ sq ++ source_name ++ sq ++
          " not found. Cannot merge."),
       c)
  | some source_person =>
      match dictGet? people target_name with
      | none =>
          (ToolResult.error
            ("Target person " ++ sq ++ target_name ++ sq ++
              " not found. Cannot merge."),
           c)
      | some target_person =>
          if source_name = target_name then
            (ToolResult.error
              ("Cannot merge person " ++ sq ++ source_name ++ sq ++
                " into themself."),
             c)
          else
            let merged := target_person.merge source_person
            let people' :=
              dictPop (dictInsert people target_name merged) source_name
            (ToolResult.mergeSuccess target_name merged.toStr,
             { c with
               people := some people'
               last_operation := some "merge_persons"
               last_result_summary :=
                 some ("Merged " ++ sq ++ source_name ++ sq ++ " into " ++
                   sq ++ target_name ++ sq)
               merged_from := some source_name
               merged_to := some target_name })

/-! ## Dispatcher (src/pipeline.py, `handle_tool_call`)

`tool_call.function.arguments` is a JSON string.  `json.loads` is external
serialization machinery; a raw payload is embedded together with its parse
outcome: `malformed` (a `json.JSONDecodeError` is raised) or `parsed` (the
resulting object — the tool schemas in `src/tools.py` declare every
parameter as a string, so the parsed object is a string-keyed dict of
strings). -/

inductive ArgPayload where
  | malformed (raw : String)
  | parsed (raw : String) (args : List (String × String))
deriving Repr, DecidableEq

/-- The raw JSON text of the payload (`tool_call.function.arguments`). -/
def ArgPayload.rawStr : ArgPayload → String
  | .malformed raw => raw
  | .parsed raw _ => raw

/-- `tool_call.function` of an OpenAI tool-call object. -/
structure ToolFunction where
  name : String
  arguments : ArgPayload
deriving Repr, DecidableEq

/-- A tool-invocation request from the model boundary. -/
structure ToolCall where
  id : String
  type : String
  function : ToolFunction
deriving Repr, DecidableEq

/-- Message content: plain text, or a `json.dumps` of `{"error": msg}` /
`{"result": result}` (the serialized JSON object is kept structurally). -/
inductive MsgContent where
  | text (s : String)
  | errorObj (msg : String)
  | resultObj (r : ToolResult)
deriving Repr, DecidableEq

/-- The reconstructed tool-call dict appended to the message history by
`task_loop` (`{"id", "type", "function": {"name", "arguments"}}`, with the
raw argument string). -/
structure ToolCallRec where
  id : String
  type : String
  name : String
  arguments : String
deriving Repr, DecidableEq

/-- A conversation message.  Optional fields model keys absent from the
Python dict (tool messages have no `tool_calls` key; assistant messages
have no `tool_call_id` key — both are `none` there). -/
structure Message where
  role : String
  content : Option MsgContent
  tool_call_id : Option String
  tool_calls : Option (List ToolCallRec)
deriving Repr, DecidableEq

/-- `args_dict.get(k)` — first (only) entry with key `k`. -/
def argLookup (args : List (String × String)) (k : String) : Option String :=
  (args.find? (fun e => e.1 = k)).map (fun e => e.2)

/-- Keyword binding of `create_person(**args_dict, context=context)`:
`none` models the `TypeError` raised when a key is not a parameter of the
handler (including `"context"`, which would duplicate the explicit
`context=context`) or when the required `name` is missing. -/
def bindCreate (args : List (String × String)) :
    Option (String × String × String × String) :=
  if args.all (fun e => ["name", "description", "role", "speaker_id"].contains e.1)
  then
    match argLookup args "name" with
    | some n =>
        some (n, (argLookup args "description").getD "",
          (argLookup args "role").getD "", (argLookup args "speaker_id").getD "")
    | none => none
  else none

/-- Keyword binding of `update_person(**args_dict, context=context)`:
required `person_name`, five optional parameters. -/
def bindUpdate (args : List (String × String)) :
    Option (String × Option String × Option String × Option String ×
      Option String × Option String) :=
  if args.all (fun e =>
      ["person_name", "name", "description", "role", "speaker_id",
        "quote"].contains e.1) then
    match argLookup args "person_name" with
    | some pn =>
        some (pn, argLookup args "name", argLookup args "description",
          argLookup args "role", argLookup args "speaker_id",
          argLookup args "quote")
    | none => none
  else none

/-- Keyword binding of `lookup_person(**args_dict, context=context)`. -/
def bindLookup (args : List (String × String)) : Option String :=
  if args.all (fun e => ["keyword"].contains e.1) then
    argLookup args "keyword"
  else none

/-- Keyword binding of `merge_persons(**args_dict, context=context)`. -/
def bindMerge (args : List (String × String)) : Option (String × String) :=
  if args.all (fun e => ["source_name", "target_name"].contains e.1) then
    match argLookup args "source_name", argLookup args "target_name" with
    | some s, some t => some (s, t)
    | _, _ => none
  else none

/-- The keys of the `tool_handlers` dict (`src/handlers.py`), in order. -/
def tool_handlers_names : List String :=
  ["create_person", "update_person", "lookup_person", "merge_persons"]

/-- `handler(**args_dict, context=context)` for the resolved handler:
`none` models the caught `TypeError` when keyword binding fails. -/
def callHandler (tool_name : String) (args : List (String × String))
    (c : Context) : Option (ToolResult × Context) :=
  if tool_name = "create_person" then
    (bindCreate args).map (fun a => create_person a.1 a.2.1 a.2.2.1 a.2.2.2 c)
  else if tool_name = "update_person" then
    (bindUpdate args).map (fun a =>
      update_person a.1 a.2.1 a.2.2.1 a.2.2.2.1 a.2.2.2.2.1 a.2.2.2.2.2 c)
  else if tool_name = "lookup_person" then
    (bindLookup args).map (fun k => lookup_person k c)
  else if tool_name = "merge_persons" then
    (bindMerge args).map (fun a => merge_persons a.1 a.2 c)
  else none

/-- `handle_tool_call`: parse the raw arguments (malformed JSON
short-circuits to an error message naming the tool and the raw payload),
resolve the tool name in `tool_handlers` (unknown name short-circuits to an
error), execute the handler (a `TypeError` from keyword binding is caught
and reported; the interpreter-generated exception text in
`f"Error calling handler for {tool_name}: {e}"` is abstracted as
`"TypeError"`), and format the outcome as a tool message.  Returns the tool
message, the handler's direct result (`None` on the error paths) and the
resulting store. -/
def handle_tool_call (tc : ToolCall) (c : Context) :
    Message × Option ToolResult × Context :=
  let tool_name := tc.function.name
  match tc.function.arguments with
  | .malformed raw =>
      let msg :=
        "Error: Invalid JSON arguments for tool " ++ tool_name ++ ": " ++ raw
      (⟨"tool", some (MsgContent.errorObj msg), some tc.id, none⟩, none, c)
  | .parsed _ args =>
      if tool_handlers_names.contains tool_name then
        match callHandler tool_name args c with
        | none =>
            let msg :=
              "Error calling handler for " ++ tool_name ++ ": TypeError"
            (⟨"tool", some (MsgContent.errorObj msg), some tc.id, none⟩,
             none, c)
        | some (result, c') =>
            (⟨"tool", some (MsgContent.resultObj result), some tc.id, none⟩,
             some result, c')
      else
        let msg :=
          "Error: Unknown tool " ++ sq ++ tool_name ++ sq ++ " requested."
        (⟨"tool", some (MsgContent.errorObj msg), some tc.id, none⟩, none, c)

/-! ## Orchestration loop (src/pipeline.py, `task_loop`)

The model boundary (`get_completion`, an external blocking API call) is
modelled as explicit inputs: the first completion's assistant message
(`content` plus its list of tool-invocation requests — `None` and the empty
list are both falsy in `if assistant_msg_obj.tool_calls:`, so a plain list
suffices) and the follow-up completion's textual content, consulted only
when a tool call was made. -/

structure AssistantMsg where
  content : Option String
  tool_calls : List ToolCall
deriving Repr, DecidableEq

/-- `task_loop`: append the assistant turn (reconstructing the tool-call
dicts when present), then — when at least one tool-invocation request is
present — dispatch ONLY `tool_calls[0]` via `handle_tool_call`, append the
tool message, take the follow-up completion's content as the final answer
and append it.  Returns the messages, the final content and the resulting
store. -/
def task_loop (messages : List Message) (first : AssistantMsg)
    (followUp : Option String) (c : Context) :
    List Message × Option String × Context :=
  let assistant_tool_calls : Option (List ToolCallRec) :=
    if first.tool_calls.isEmpty then none
    else some (first.tool_calls.map (fun tc =>
      ⟨tc.id, tc.type, tc.function.name, tc.function.arguments.rawStr⟩))
  let messages :=
    messages ++ [⟨"assistant", first.content.map MsgContent.text, none,
      assistant_tool_calls⟩]
  match first.tool_calls with
  | [] => (messages, first.content, c)
  | tc :: _ =>
      let r := handle_tool_call tc c
      let messages := messages ++ [r.1]
      let messages :=
        messages ++ [⟨"assistant", followUp.map MsgContent.text, none, none⟩]
      (messages, followUp, r.2.2)

/-! ## Concrete stores used as test fixtures -/

/-- A person named "K" with all other fields empty. -/
def personK : Person := ⟨"K", "", "", "", []⟩

/-- A store whose people table holds exactly the entity "K". -/
def ctxK : Context := ⟨some [("K", personK)], none, none, none, none, none⟩

/-- A person named "P". -/
def personP : Person := ⟨"P", "", "", "", []⟩

/-- A person named "Q" with a description and a quote. -/
def personQ : Person := ⟨"Q", "a witness", "", "", ["saw it"]⟩

/-- A store whose people table holds the two distinct entities "P" and "Q". -/
def ctxPQ : Context :=
  ⟨some [("P", personP), ("Q", personQ)], none, none, none, none, none⟩

/-! ## Lemmas about the dict model -/

theorem dictContains_eq_isSome (d : PeopleDict) (k : String) :
    dictContains d k = (dictGet? d k).isSome := by
  induction d with
  | nil => rfl
  | cons e es ih =>
      by_cases he : e.1 = k <;> simp [dictContains, dictGet?, he, ih]

theorem dictGet?_insert_self (d : PeopleDict) (k : String) (v : Person) :
    dictGet? (dictInsert d k v) k = some v := by
  induction d with
  | nil => simp [dictInsert, dictGet?]
  | cons e es ih =>
      by_cases he : e.1 = k <;> simp [dictInsert, dictGet?, he, ih]

theorem dictGet?_insert_ne (d : PeopleDict) (k k' : String) (v : Person)
    (h : k' ≠ k) : dictGet? (dictInsert d k v) k' = dictGet? d k' := by
  have hk : ¬(k = k') := Ne.symm h
  induction d with
  | nil => simp [dictInsert, dictGet?, hk]
  | cons e es ih =>
      by_cases he : e.1 = k
      · simp [dictInsert, dictGet?, he, hk]
      · by_cases he' : e.1 = k' <;> simp [dictInsert, dictGet?, he, he', ih, h]

theorem dictGet?_pop_ne (d : PeopleDict) (k k' : String) (h : k' ≠ k) :
    dictGet? (dictPop d k) k' = dictGet? d k' := by
  have hk : ¬(k = k') := Ne.symm h
  induction d with
  | nil => rfl
  | cons e es ih =>
      by_cases he : e.1 = k
      · have : ¬(e.1 = k') := fun h' => hk (he ▸ h')
        simp [dictPop, dictGet?, he, this, hk]
      · by_cases he' : e.1 = k' <;> simp [dictPop, dictGet?, he, he', ih, h]

theorem dictGet?_of_not_contains (d : PeopleDict) (k : String)
    (h : dictContains d k = false) : dictGet? d k = none := by
  induction d with
  | nil => rfl
  | cons e es ih =>
      simp only [dictContains, Bool.or_eq_false_iff, decide_eq_false_iff_not] at h
      simp [dictGet?, h.1, ih h.2]

theorem dictContains_of_not_mem (d : PeopleDict) (k : String)
    (h : k ∉ d.map (fun e => e.1)) : dictContains d k = false := by
  induction d with
  | nil => rfl
  | cons e es ih =>
      simp only [List.map_cons, List.mem_cons, not_or] at h
      have : ¬(e.1 = k) := fun h' => h.1 h'.symm
      simp [dictContains, this, ih h.2]

theorem dictGet?_pop_self (d : PeopleDict) (k : String) (h : nodupKeys d) :
    dictGet? (dictPop d k) k = none := by
  induction d with
  | nil => rfl
  | cons e es ih =>
      have hnd : nodupKeys es := (List.nodup_cons.mp h).2
      by_cases he : e.1 = k
      · have hk : e.1 ∉ es.map (fun e => e.1) := (List.nodup_cons.mp h).1
        have hc : dictContains es k = false :=
          dictContains_of_not_mem es k (he ▸ hk)
        simp [dictPop, he, dictGet?_of_not_contains es k hc]
      · simp [dictPop, dictGet?, he, ih hnd]

theorem length_dictPop (d : PeopleDict) (k : String)
    (h : dictContains d k = true) : (dictPop d k).length + 1 = d.length := by
  induction d with
  | nil => simp [dictContains] at h
  | cons e es ih =>
      by_cases he : e.1 = k
      · simp [dictPop, he]
      · have h' : dictContains es k = true := by
          simpa [dictContains, he] using h
        simp [dictPop, he, ih h']

theorem length_dictInsert (d : PeopleDict) (k : String) (v : Person)
    (h : dictContains d k = true) : (dictInsert d k v).length = d.length := by
  induction d with
  | nil => simp [dictContains] at h
  | cons e es ih =>
      by_cases he : e.1 = k
      · simp [dictInsert, he]
      · have h' : dictContains es k = true := by
          simpa [dictContains, he] using h
        simp [dictInsert, he, ih h']

/-! ## Lemmas about the quote-merging fold -/

theorem mem_mergeQuotes (s o : List String) (q : String) :
    q ∈ mergeQuotes s o ↔ q ∈ s ∨ q ∈ o := by
  induction o generalizing s with
  | nil => simp [mergeQuotes]
  | cons x o ih =>
      have step : mergeQuotes s (x :: o) =
          mergeQuotes (if x ∈ s then s else s ++ [x]) o := rfl
      rw [step, ih]
      by_cases hx : x ∈ s
      · simp only [if_pos hx, List.mem_cons]
        constructor
        · rintro (h | h)
          · exact Or.inl h
          · exact Or.inr (Or.inr h)
        · rintro (h | h | h)
          · exact Or.inl h
          · exact Or.inl (h ▸ hx)
          · exact Or.inr h
      · simp only [if_neg hx, List.mem_append, List.mem_singleton,
          List.mem_cons]
        tauto

theorem nodup_mergeQuotes (s o : List String) (h : s.Nodup) :
    (mergeQuotes s o).Nodup := by
  induction o generalizing s with
  | nil => exact h
  | cons x o ih =>
      have step : mergeQuotes s (x :: o) =
          mergeQuotes (if x ∈ s then s else s ++ [x]) o := rfl
      rw [step]
      by_cases hx : x ∈ s
      · exact ih _ (by simpa [hx] using h)
      · exact ih _ (by simp [List.nodup_append, h, hx])

/-! ## Claim theorems -/

/-- Claim C1, counterexample: on the empty store, `merge_persons("A","A")`
returns the source-not-found error, not the self-merge error — the two
`not in people` guards run before the self-merge guard, so the claim's
"regardless of whether A exists" fails. -/
theorem merge_persons_self_absent_counterexample :
    (merge_persons "A" "A" Context.empty).1 =
      ToolResult.error
        ("Source person " ++ sq ++ "A" ++ sq ++ " not found. Cannot merge.") ∧
    (merge_persons "A" "A" Context.empty).1 ≠
      ToolResult.error
        ("Cannot merge person " ++ sq ++ "A" ++ sq ++ " into themself.") := by
  decide

/-- Claim C1, amended: `merge_persons(n, n)` returns the self-merge error
exactly when an entity named `n` exists in the people table; when `n` is
absent it returns the source-not-found error instead.  Either way the store
is unchanged. -/
theorem merge_persons_self_error (n : String) (c : Context) :
    merge_persons n n c =
      ((if dictContains c.getPeople n then
          ToolResult.error
            ("Cannot merge person " ++ sq ++ n ++ sq ++ " into themself.")
        else
          ToolResult.error
            ("Source person " ++ sq ++ n ++ sq ++ " not found. Cannot merge.")),
       c) := by
  cases hg : dictGet? c.getPeople n with
  | none =>
      have hc : dictContains c.getPeople n = false := by
        rw [dictContains_eq_isSome, hg]; rfl
      simp [merge_persons, hg, hc]
  | some p =>
      have hc : dictContains c.getPeople n = true := by
        rw [dictContains_eq_isSome, hg]; rfl
      simp [merge_persons, hg, hc]

/-- Claim C2: when the first completion carries two or more tool-invocation
requests, `task_loop` dispatches only `tool_calls[0]`: the resulting store
is exactly the store produced by `handle_tool_call` on the first request,
and exactly one tool-result message — the one for the first request — is
appended (the remaining requests are recorded in the assistant message's
transcript but never executed; nothing in the output depends on them beyond
that record). -/
theorem task_loop_executes_only_first (ms : List Message) (cnt : Option String)
    (tc tc2 : ToolCall) (rest : List ToolCall) (fu : Option String)
    (c : Context) :
    task_loop ms ⟨cnt, tc :: tc2 :: rest⟩ fu c =
      (ms ++ [⟨"assistant", cnt.map MsgContent.text, none,
          some ((tc :: tc2 :: rest).map (fun t =>
            ⟨t.id, t.type, t.function.name, t.function.arguments.rawStr⟩))⟩] ++
        [(handle_tool_call tc c).1] ++
        [⟨"assistant", fu.map MsgContent.text, none, none⟩],
       fu, (handle_tool_call tc c).2.2) := by
  simp [task_loop]

/-- Claim C3: dispatching a tool invocation whose raw argument payload is
not parseable JSON yields a tool message whose content is an error object
that embeds the raw payload verbatim, the handler result is `None`, and the
store is returned unchanged — no handler is resolved or executed. -/
theorem handle_tool_call_malformed (id ty name raw : String) (c : Context) :
    handle_tool_call ⟨id, ty, ⟨name, ArgPayload.malformed raw⟩⟩ c =
      (⟨"tool", some (MsgContent.errorObj
          ("Error: Invalid JSON arguments for tool " ++ name ++ ": " ++ raw)),
        some id, none⟩,
       none, c) := rfl

/-- Claim C4, counterexample: dispatching `update_person` on a store that
contains "K" with a parseable payload holding only the unrecognized field
`hobby` (besides `person_name`) does not return `no_change`: the keyword
binding `handler(**args_dict, context=context)` raises a `TypeError`, which
the dispatcher catches and turns into an error result (`result` is `None`
and the tool message carries an error object). -/
theorem update_person_unrecognized_counterexample :
    handle_tool_call
        ⟨"call1", "function",
          ⟨"update_person",
            ArgPayload.parsed "\x7b\x7d" [("person_name", "K"), ("hobby", "x")]⟩⟩
        ctxK =
      (⟨"tool", some (MsgContent.errorObj
          ("Error calling handler for update_person: TypeError")),
        some "call1", none⟩,
       none, ctxK) := by
  decide

/-- Claim C4, amended: when the store contains an entity keyed by
`person_name` and every optional field of `update_person` is absent and no
quote is supplied, the handler returns the `no_change` result — a
constructor distinct from `success` and from `error` — and leaves the store
unchanged.  (Supplying a field name outside the tool's signature instead
raises a `TypeError` that the dispatcher reports as an error result.) -/
theorem update_person_no_change (pn : String) (p : Person) (c : Context)
    (h : dictGet? c.getPeople pn = some p) :
    update_person pn none none none none none c =
      (ToolResult.noChange ("No updates provided for " ++ pn), c) := by
  simp [update_person, h, Updates.nonEmpty]

/-- Claim C4 witness: the amended theorem applied to the concrete store
holding only "K". -/
theorem update_person_no_change_witness :
    dictGet? ctxK.getPeople "K" = some personK ∧
    update_person "K" none none none none none ctxK =
      (ToolResult.noChange ("No updates provided for " ++ "K"), ctxK) :=
  ⟨by decide, update_person_no_change "K" personK ctxK (by decide)⟩

/-- Claim C5: renaming the entity stored under key `K` (whose `name` field
is `K`, the table invariant) to a fresh name `N` re-keys it: `K` is absent
afterwards, `N` maps to the same entity with only its `name` field changed,
and every other key is untouched. -/
theorem update_person_rename (K N : String) (p : Person) (c : Context)
    (hnd : nodupKeys c.getPeople)
    (hget : dictGet? c.getPeople K = some p)
    (hname : p.name = K) (hNK : N ≠ K) :
    dictGet? ((update_person K (some N) none none none none c).2).getPeople
        K = none ∧
    dictGet? ((update_person K (some N) none none none none c).2).getPeople
        N = some { p with name := N } ∧
    ∀ k, k ≠ K → k ≠ N →
      dictGet? ((update_person K (some N) none none none none c).2).getPeople
          k = dictGet? c.getPeople k := by
  have hNname : ¬(N = p.name) := fun h => hNK (hname ▸ h)
  have hget' : dictGet? (c.people.getD []) K = some p := hget
  have hstep : (update_person K (some N) none none none none c).2.getPeople =
      dictInsert (dictPop c.getPeople K) N { p with name := N } := by
    simp [update_person, hget', hNname, hNK, Updates.nonEmpty, Person.add_data,
      Context.getPeople]
  rw [hstep]
  refine ⟨?_, dictGet?_insert_self _ _ _, ?_⟩
  · rw [dictGet?_insert_ne _ _ _ _ (Ne.symm hNK)]
    exact dictGet?_pop_self _ _ hnd
  · intro k hkK hkN
    rw [dictGet?_insert_ne _ _ _ _ hkN, dictGet?_pop_ne _ _ _ hkK]

/-- Claim C5 witness: renaming "K" to "N" in the concrete one-entry store. -/
theorem update_person_rename_witness :
    nodupKeys ctxK.getPeople ∧
    dictGet? ctxK.getPeople "K" = some personK ∧
    dictGet? ((update_person "K" (some "N") none none none none ctxK).2).getPeople
        "K" = none ∧
    dictGet? ((update_person "K" (some "N") none none none none ctxK).2).getPeople
        "N" = some { personK with name := "N" } :=
  ⟨by decide, by decide,
   (update_person_rename "K" "N" personK ctxK (by decide) (by decide)
      (by decide) (by decide)).1,
   (update_person_rename "K" "N" personK ctxK (by decide) (by decide)
      (by decide) (by decide)).2.1⟩

/-- Claim C6, counterexample: quotes added via `add_quote` are not
de-duplicated, so a target entity that already holds a duplicate quote
keeps it through `merge` — the post-merge quote list is not duplicate-free
as the claim states. -/
theorem merge_quotes_dup_counterexample :
    (Person.merge ⟨"E", "", "", "", ["a", "a"]⟩ ⟨"F", "", "", "", ["b"]⟩).quotes
        = ["a", "a", "b"] ∧
    ¬ (Person.merge ⟨"E", "", "", "", ["a", "a"]⟩
        ⟨"F", "", "", "", ["b"]⟩).quotes.Nodup := by
  decide

/-- Claim C6, amended: after `E.merge(E')` the quotes of `E`, viewed as a
set under exact string equality, unconditionally equal the union of the two
entities' quote sets — for every pair of entities, duplicate targets
included; and the result contains no duplicates provided the target's quote
list was duplicate-free before the merge (the merge loop itself never
introduces a duplicate). -/
theorem merge_quotes_union (E E' : Person) :
    (∀ q, q ∈ (E.merge E').quotes ↔ q ∈ E.quotes ∨ q ∈ E'.quotes) ∧
    (E.quotes.Nodup → (E.merge E').quotes.Nodup) := by
  constructor
  · intro q
    exact mem_mergeQuotes E.quotes E'.quotes q
  · intro h
    exact nodup_mergeQuotes E.quotes E'.quotes h

/-- Claim C6 witness: the amended theorem applied to two concrete entities
with overlapping quote lists — the union conjunct instantiated at a quote of
the source, and the duplicate-freedom conjunct with its premise discharged. -/
theorem merge_quotes_union_witness :
    ("c" ∈ (Person.merge ⟨"E", "", "", "", ["a", "b"]⟩
        ⟨"F", "", "", "", ["b", "c"]⟩).quotes ↔
      "c" ∈ ["a", "b"] ∨ "c" ∈ ["b", "c"]) ∧
    ((["a", "b"] : List String).Nodup ∧
      (Person.merge ⟨"E", "", "", "", ["a", "b"]⟩
        ⟨"F", "", "", "", ["b", "c"]⟩).quotes.Nodup) :=
  ⟨(merge_quotes_union ⟨"E", "", "", "", ["a", "b"]⟩
      ⟨"F", "", "", "", ["b", "c"]⟩).1 "c",
   by decide,
   (merge_quotes_union ⟨"E", "", "", "", ["a", "b"]⟩
      ⟨"F", "", "", "", ["b", "c"]⟩).2 (by decide)⟩

/-- Claim C7: dispatching a tool invocation whose name is not a key of
`tool_handlers` — with a payload that parses — yields an error result
naming that tool, the handler result is `None`, and the store is returned
unchanged: no handler is invoked. -/
theorem handle_tool_call_unknown (id ty name raw : String)
    (args : List (String × String)) (c : Context)
    (h : tool_handlers_names.contains name = false) :
    handle_tool_call ⟨id, ty, ⟨name, ArgPayload.parsed raw args⟩⟩ c =
      (⟨"tool", some (MsgContent.errorObj
          ("Error: Unknown tool " ++ sq ++ name ++ sq ++ " requested.")),
        some id, none⟩,
       none, c) := by
  have h' : ¬(name ∈ tool_handlers_names) := by simpa using h
  simp [handle_tool_call, h']

/-- Claim C7 witness: the unknown name "delete_person" from the claim. -/
theorem handle_tool_call_unknown_witness :
    tool_handlers_names.contains "delete_person" = false ∧
    handle_tool_call
        ⟨"call2", "function",
          ⟨"delete_person", ArgPayload.parsed "\x7b\x7d" []⟩⟩ Context.empty =
      (⟨"tool", some (MsgContent.errorObj
          ("Error: Unknown tool " ++ sq ++ "delete_person" ++ sq ++
            " requested.")),
        some "call2", none⟩,
       none, Context.empty) :=
  ⟨by decide,
   handle_tool_call_unknown "call2" "function" "delete_person" "\x7b\x7d" []
     Context.empty (by decide)⟩

/-- Claim C8: merging an entity whose four scalar fields are all empty into
`E` leaves each of `E`'s scalar fields unchanged — every `if other.field
and not self.field` guard is falsified by the empty (falsy) source value. -/
theorem merge_empty_scalars (E E' : Person)
    (h1 : E'.name = "") (h2 : E'.description = "") (h3 : E'.role = "")
    (h4 : E'.speaker_id = "") :
    (E.merge E').name = E.name ∧
    (E.merge E').description = E.description ∧
    (E.merge E').role = E.role ∧
    (E.merge E').speaker_id = E.speaker_id := by
  simp [Person.merge, h1, h2, h3, h4]

/-- Claim C8 witness: merging an all-empty-fields entity (with a quote)
into a fully populated one. -/
theorem merge_empty_scalars_witness :
    (Person.name ⟨"", "", "", "", ["q"]⟩ = "") ∧
    (Person.merge ⟨"Robert Chen", "driver", "Civilian Driver", "S1", []⟩
        ⟨"", "", "", "", ["q"]⟩).name = "Robert Chen" :=
  ⟨by decide,
   (merge_empty_scalars ⟨"Robert Chen", "driver", "Civilian Driver", "S1", []⟩
      ⟨"", "", "", "", ["q"]⟩ (by decide) (by decide) (by decide)
      (by decide)).1⟩

/-- Claim C9: when the table holds entities under the distinct keys `P` and
`Q` (the entity at `P` named `P`, the table invariant), renaming `P` to `Q`
returns a plain success result with no collision report, the renamed entity
overwrites the entity previously stored under `Q`, the key `P` disappears,
and the table shrinks by exactly one entry. -/
theorem update_person_rename_collision (P Q : String) (pP pQ : Person)
    (c : Context) (hnd : nodupKeys c.getPeople)
    (hP : dictGet? c.getPeople P = some pP)
    (hQ : dictGet? c.getPeople Q = some pQ)
    (hname : pP.name = P) (hPQ : P ≠ Q) :
    (update_person P (some Q) none none none none c).1 =
      ToolResult.success Q (Person.toStr { pP with name := Q }) ∧
    dictGet? ((update_person P (some Q) none none none none c).2).getPeople
        Q = some { pP with name := Q } ∧
    dictGet? ((update_person P (some Q) none none none none c).2).getPeople
        P = none ∧
    ((update_person P (some Q) none none none none c).2).getPeople.length + 1 =
      c.getPeople.length := by
  have hQname : ¬(Q = pP.name) := fun h => hPQ (hname ▸ h).symm
  have hQP : ¬(Q = P) := fun h => hPQ h.symm
  have hP' : dictGet? (c.people.getD []) P = some pP := hP
  have hres : (update_person P (some Q) none none none none c).1 =
      ToolResult.success Q (Person.toStr { pP with name := Q }) := by
    simp [update_person, hP', hQname, hQP, Updates.nonEmpty,
      Person.add_data, Context.getPeople]
  have hstep : (update_person P (some Q) none none none none c).2.getPeople =
      dictInsert (dictPop c.getPeople P) Q { pP with name := Q } := by
    simp [update_person, hP', hQname, hQP, Updates.nonEmpty,
      Person.add_data, Context.getPeople]
  have hQpop : dictGet? (dictPop c.getPeople P) Q = some pQ := by
    rw [dictGet?_pop_ne _ _ _ (Ne.symm hPQ)]; exact hQ
  have hQc : dictContains (dictPop c.getPeople P) Q = true := by
    rw [dictContains_eq_isSome, hQpop]; rfl
  have hPc : dictContains c.getPeople P = true := by
    rw [dictContains_eq_isSome, hP]; rfl
  refine ⟨hres, ?_, ?_, ?_⟩
  · rw [hstep]; exact dictGet?_insert_self _ _ _
  · rw [hstep, dictGet?_insert_ne _ _ _ _ hPQ]
    exact dictGet?_pop_self _ _ hnd
  · rw [hstep, length_dictInsert _ _ _ hQc, length_dictPop _ _ hPc]

/-- Claim C9 witness: renaming "P" to "Q" in the concrete two-entry store;
the table shrinks from two entries to one and "Q" now holds the renamed
entity. -/
theorem update_person_rename_collision_witness :
    dictGet? ctxPQ.getPeople "P" = some personP ∧
    dictGet? ctxPQ.getPeople "Q" = some personQ ∧
    (update_person "P" (some "Q") none none none none ctxPQ).1 =
      ToolResult.success "Q" (Person.toStr { personP with name := "Q" }) ∧
    ((update_person "P" (some "Q") none none none none ctxPQ).2).getPeople.length
        + 1 = ctxPQ.getPeople.length :=
  ⟨by decide, by decide,
   (update_person_rename_collision "P" "Q" personP personQ ctxPQ (by decide)
      (by decide) (by decide) (by decide) (by decide)).1,
   (update_person_rename_collision "P" "Q" personP personQ ctxPQ (by decide)
      (by decide) (by decide) (by decide) (by decide)).2.2.2⟩

/-- Claim C10: whenever `update_person` or `merge_persons` returns an error
result (for these handlers: not-found, and merge's self-merge), the store
is returned entirely unchanged — no people entry is touched and the
bookkeeping keys `last_operation` / `last_result_summary` are not written
(they are only set on the success paths, after the guards). -/
theorem handlers_unchanged_on_domain_error (pn sn tn : String)
    (n de ro si qu : Option String) (c : Context) (m m' : String) :
    ((update_person pn n de ro si qu c).1 = ToolResult.error m →
      (update_person pn n de ro si qu c).2 = c) ∧
    ((merge_persons sn tn c).1 = ToolResult.error m' →
      (merge_persons sn tn c).2 = c) := by
  constructor
  · intro hu
    cases hg : dictGet? c.getPeople pn with
    | none => simp [update_person, hg]
    | some p =>
        exfalso
        simp only [update_person, hg] at hu
        split at hu <;> simp_all
  · intro hm
    cases hg : dictGet? c.getPeople sn with
    | none => simp [merge_persons, hg]
    | some sp =>
        cases hg2 : dictGet? c.getPeople tn with
        | none => simp [merge_persons, hg, hg2]
        | some tp =>
            by_cases hst : sn = tn
            · simp [merge_persons, hg, hg2, hst]
            · exfalso
              simp only [merge_persons, hg, hg2, if_neg hst] at hm
              exact ToolResult.noConfusion hm

/-- Claim C10 witness: on the empty store, `update_person("K", ...)` and
`merge_persons("A","B")` both return not-found errors and leave the store
equal to the empty store. -/
theorem handlers_unchanged_on_domain_error_witness :
    (update_person "K" none none none none none Context.empty).2 =
        Context.empty ∧
    (merge_persons "A" "B" Context.empty).2 = Context.empty :=
  ⟨(handlers_unchanged_on_domain_error "K" "A" "B" none none none none none
      Context.empty
      ("Person " ++ sq ++ "K" ++ sq ++ " not found. Cannot update.")
      ("Source person " ++ sq ++ "A" ++ sq ++ " not found. Cannot merge.")).1
      (by decide),
   (handlers_unchanged_on_domain_error "K" "A" "B" none none none none none
      Context.empty
      ("Person " ++ sq ++ "K" ++ sq ++ " not found. Cannot update.")
      ("Source person " ++ sq ++ "A" ++ sq ++ " not found. Cannot merge.")).2
      (by decide)⟩

end CopContext
